import Mathlib

/-!
Shallow embedding of `src/window/window_wrapper/keyboard_manager.rs` from the
neovide repository: the keyboard-event-to-keybinding-string state machine.

The external collaborators (glutin/winit event types, the `LoggingTx` command
channel) are modelled by their interfaces as used by this file: key events carry
a press/release state, a logical key and the platform-resolved text; the channel
is modelled by a health flag `sendOk` — a send succeeds exactly when the flag is
true, and a failed send aborts processing with the `expect` panic message, which
we model in the `Except` monad.
-/

namespace KeyboardManagerSpec

/-- Press/release state of a key event (`glutin::event::ElementState`). -/
inductive ElementState where
  | Pressed
  | Released
  deriving DecidableEq, Repr

/-- Logical key identity (`glutin::keyboard::Key`): the named control keys
matched by `is_control_key`, printable character keys, and a catch-all for
every other variant of the upstream enum (all of which fall into the
`_ => None` arm of `is_control_key`). -/
inductive Key where
  | Backspace
  | Escape
  | Delete
  | ArrowUp
  | ArrowDown
  | ArrowLeft
  | ArrowRight
  | F1 | F2 | F3 | F4 | F5 | F6 | F7 | F8 | F9 | F10 | F11 | F12
  | Insert
  | Home
  | End
  | PageUp
  | PageDown
  | Character (s : String)
  | Other
  deriving DecidableEq, Repr

/-- A platform key event (`glutin::event::KeyEvent`). The field
`text_with_all_modifiers` models the result of the
`KeyEventExtModifierSupplement::text_with_all_modifiers()` call: the text the
platform resolves for this key under all currently-active modifiers, or `none`
when no text is resolvable (dead key etc.). -/
structure KeyEvent where
  state : ElementState
  logical_key : Key
  text_with_all_modifiers : Option String
  deriving DecidableEq, Repr

/-- Modifier snapshot delivered by `WindowEvent::ModifiersChanged`
(`control_key()`, `alt_key()`, `super_key()` accessors). -/
structure ModifiersState where
  control_key : Bool
  alt_key : Bool
  super_key : Bool
  deriving DecidableEq, Repr

/-- The events `KeyboardManager::handle_event` distinguishes; `Other` stands
for the `_ => {}` catch-all arm. -/
inductive Event where
  | Focused (focused : Bool)
  | KeyboardInput (key_event : KeyEvent)
  | ModifiersChanged (modifiers : ModifiersState)
  | MainEventsCleared
  | Other
  deriving DecidableEq, Repr

/-- The single `UiCommand` variant this component sends. -/
inductive UiCommand where
  | Keyboard (s : String)
  deriving DecidableEq, Repr

/-- `fn use_logo` — the `cfg(not(target_os = "windows"))` variant: the logo
modifier passes through unchanged. -/
def use_logo (logo : Bool) : Bool :=
  logo

/-- `fn use_logo` — the `cfg(target_os = "windows")` variant: the Windows key
is used for OS-level shortcuts, so the logo modifier is always masked out. -/
def use_logo_windows (_logo : Bool) : Bool :=
  false

/-- `fn or_empty`. -/
def or_empty (condition : Bool) (text : String) : String :=
  if condition then text else ""

/-- `fn is_control_key`: the fixed table from named control keys to canonical
tokens. -/
def is_control_key (key : Key) : Option String :=
  match key with
  | Key.Backspace => some "BS"
  | Key.Escape => some "Esc"
  | Key.Delete => some "Del"
  | Key.ArrowUp => some "Up"
  | Key.ArrowDown => some "Down"
  | Key.ArrowLeft => some "Left"
  | Key.ArrowRight => some "Right"
  | Key.F1 => some "F1"
  | Key.F2 => some "F2"
  | Key.F3 => some "F3"
  | Key.F4 => some "F4"
  | Key.F5 => some "F5"
  | Key.F6 => some "F6"
  | Key.F7 => some "F7"
  | Key.F8 => some "F8"
  | Key.F9 => some "F9"
  | Key.F10 => some "F10"
  | Key.F11 => some "F11"
  | Key.F12 => some "F12"
  | Key.Insert => some "Insert"
  | Key.Home => some "Home"
  | Key.End => some "End"
  | Key.PageUp => some "PageUp"
  | Key.PageDown => some "PageDown"
  | _ => none

/-- `fn is_special`: the literal-substitution table. -/
def is_special (text : String) : Option String :=
  match text with
  | " " => some "Space"
  | "<" => some "lt"
  | "\\" => some "Bslash"
  | "|" => some "Bar"
  | "\t" => some "Tab"
  | "\n" => some "CR"
  | _ => none

/-- `struct KeyboardManager`. The `command_sender` handle is modelled outside
the state, by the `sendOk` channel-health flag passed to `handle_event`. -/
structure KeyboardManager where
  ctrl : Bool
  alt : Bool
  logo : Bool
  ignore_input_this_frame : Bool
  queued_key_events : List KeyEvent
  deriving DecidableEq, Repr

/-- `KeyboardManager::new`. -/
def KeyboardManager.new : KeyboardManager :=
  { ctrl := false
    alt := false
    logo := false
    ignore_input_this_frame := false
    queued_key_events := [] }

/-- `KeyboardManager::format_keybinding_string`.  The platform-conditional
`use_logo` function is passed as the `useLogo` parameter (`use_logo` on
non-Windows platforms, `use_logo_windows` on Windows). -/
def format_keybinding_string (useLogo : Bool → Bool) (m : KeyboardManager)
    (special : Bool) (text : String) : String :=
  let special := special || m.ctrl || m.alt || m.logo
  let openStr := or_empty special "<"
  let ctrl := or_empty m.ctrl "C-"
  let alt := or_empty m.alt "M-"
  let logo := or_empty (useLogo m.logo) "D-"
  let closeStr := or_empty special ">"
  openStr ++ ctrl ++ alt ++ logo ++ text ++ closeStr

/-- A send on the `LoggingTx` command channel: succeeds exactly when the
channel is healthy (`sendOk`). -/
def send (sendOk : Bool) (_c : UiCommand) : Except String Unit :=
  if sendOk then Except.ok () else Except.error "SendError"

/-- The panic message of the two `.expect(...)` calls in
`KeyboardManager::handle_event`. -/
def sendPanicMsg : String :=
  "Could not send keyboard ui command"

/-- The `for key_event in self.queued_key_events.iter()` loop of the
`MainEventsCleared` arm: drains the buffered key events in arrival order,
sending one `UiCommand::Keyboard` per pressed event that is a control key or
has resolvable text.  A failed send panics (`.expect`), modelled as an
`Except.error` that aborts the remainder of the loop. -/
def drain_key_events (useLogo : Bool → Bool) (sendOk : Bool) (m : KeyboardManager) :
    List KeyEvent → Except String (List UiCommand)
  | [] => Except.ok []
  | key_event :: rest =>
    if key_event.state = ElementState.Pressed then
      match is_control_key key_event.logical_key with
      | some key_text =>
        let keybinding_string := format_keybinding_string useLogo m true key_text
        match send sendOk (UiCommand.Keyboard keybinding_string) with
        | Except.ok _ =>
          (drain_key_events useLogo sendOk m rest).map
            (fun outs => UiCommand.Keyboard keybinding_string :: outs)
        | Except.error _ => Except.error sendPanicMsg
      | none =>
        match key_event.text_with_all_modifiers with
        | some key_text =>
          let keybinding_string :=
            match is_special key_text with
            | some escaped_text => format_keybinding_string useLogo m true escaped_text
            | none => format_keybinding_string useLogo m false key_text
          match send sendOk (UiCommand.Keyboard keybinding_string) with
          | Except.ok _ =>
            (drain_key_events useLogo sendOk m rest).map
              (fun outs => UiCommand.Keyboard keybinding_string :: outs)
          | Except.error _ => Except.error sendPanicMsg
        | none => drain_key_events useLogo sendOk m rest
    else
      drain_key_events useLogo sendOk m rest

/-- `KeyboardManager::handle_event`.  Returns the updated manager state and
the list of `UiCommand`s sent during the call, or the panic message when a
send failed. -/
def handle_event (useLogo : Bool → Bool) (sendOk : Bool) (m : KeyboardManager)
    (event : Event) : Except String (KeyboardManager × List UiCommand) :=
  match event with
  | Event.Focused focused =>
    Except.ok ({ m with ignore_input_this_frame := focused }, [])
  | Event.KeyboardInput key_event =>
    Except.ok ({ m with queued_key_events := m.queued_key_events ++ [key_event] }, [])
  | Event.ModifiersChanged modifiers =>
    Except.ok
      ({ m with
          ctrl := modifiers.control_key
          alt := modifiers.alt_key
          logo := modifiers.super_key }, [])
  | Event.MainEventsCleared =>
    match
      (if !m.ignore_input_this_frame then
        drain_key_events useLogo sendOk m m.queued_key_events
      else Except.ok []) with
    | Except.ok outs =>
      Except.ok
        ({ m with ignore_input_this_frame := false, queued_key_events := [] }, outs)
    | Except.error e => Except.error e
  | Event.Other => Except.ok (m, [])

/-- Processes a sequence of events in order, accumulating the sent commands. -/
def handle_events (useLogo : Bool → Bool) (sendOk : Bool) (m : KeyboardManager) :
    List Event → Except String (KeyboardManager × List UiCommand)
  | [] => Except.ok (m, [])
  | e :: rest => do
    let (m1, outs) ← handle_event useLogo sendOk m e
    let (m2, outs1) ← handle_events useLogo sendOk m1 rest
    Except.ok (m2, outs ++ outs1)

/-- The command sent for one buffered key event when the channel is healthy:
`some` of one `UiCommand::Keyboard` for a pressed control key or a pressed key
with resolvable text, `none` otherwise. -/
def emission_of (useLogo : Bool → Bool) (m : KeyboardManager) (ke : KeyEvent) :
    Option UiCommand :=
  if ke.state = ElementState.Pressed then
    match is_control_key ke.logical_key with
    | some key_text =>
      some (UiCommand.Keyboard (format_keybinding_string useLogo m true key_text))
    | none =>
      match ke.text_with_all_modifiers with
      | some key_text =>
        some (UiCommand.Keyboard
          (match is_special key_text with
          | some escaped_text => format_keybinding_string useLogo m true escaped_text
          | none => format_keybinding_string useLogo m false key_text))
      | none => none
  else none

end KeyboardManagerSpec

namespace KeyboardManagerSpec

/-- Draining with a healthy channel never panics and sends exactly one command
per buffered event that qualifies, in arrival order. -/
theorem drain_key_events_ok (useLogo : Bool → Bool) (m : KeyboardManager) :
    ∀ q : List KeyEvent,
      drain_key_events useLogo true m q = Except.ok (q.filterMap (emission_of useLogo m))
  | [] => rfl
  | ke :: rest => by
    have ih := drain_key_events_ok useLogo m rest
    by_cases h : ke.state = ElementState.Pressed
    · cases hc : is_control_key ke.logical_key with
      | some kt =>
        simp [drain_key_events, emission_of, send, h, hc, ih, Except.map]
      | none =>
        cases ht : ke.text_with_all_modifiers with
        | some kt =>
          simp [drain_key_events, emission_of, send, h, hc, ht, ih, Except.map]
        | none =>
          simp [drain_key_events, emission_of, send, h, hc, ht, ih]
    · simp [drain_key_events, emission_of, h, ih]

/-- Frame-boundary processing with a healthy channel: the buffer and the
ignore flag are cleared, and the emissions are the per-event emissions of the
buffered events unless the frame is ignored. -/
theorem handle_event_mec (useLogo : Bool → Bool) (m : KeyboardManager) :
    handle_event useLogo true m Event.MainEventsCleared =
      Except.ok
        ({ m with ignore_input_this_frame := false, queued_key_events := [] },
          if m.ignore_input_this_frame then []
          else m.queued_key_events.filterMap (emission_of useLogo m)) := by
  by_cases h : m.ignore_input_this_frame
  · simp [handle_event, h]
  · simp [handle_event, h, drain_key_events_ok]

theorem handle_event_focused (useLogo : Bool → Bool) (sendOk : Bool)
    (m : KeyboardManager) (b : Bool) :
    handle_event useLogo sendOk m (Event.Focused b) =
      Except.ok ({ m with ignore_input_this_frame := b }, []) := rfl

theorem handle_event_keyinput (useLogo : Bool → Bool) (sendOk : Bool)
    (m : KeyboardManager) (ke : KeyEvent) :
    handle_event useLogo sendOk m (Event.KeyboardInput ke) =
      Except.ok ({ m with queued_key_events := m.queued_key_events ++ [ke] }, []) := rfl

theorem handle_event_modifiers (useLogo : Bool → Bool) (sendOk : Bool)
    (m : KeyboardManager) (mods : ModifiersState) :
    handle_event useLogo sendOk m (Event.ModifiersChanged mods) =
      Except.ok
        ({ m with
            ctrl := mods.control_key
            alt := mods.alt_key
            logo := mods.super_key }, []) := rfl

/-- A forced-special keybinding string is always angle-bracket wrapped. -/
theorem format_forced (useLogo : Bool → Bool) (m : KeyboardManager) (text : String) :
    format_keybinding_string useLogo m true text =
      "<" ++ or_empty m.ctrl "C-" ++ or_empty m.alt "M-" ++
        or_empty (useLogo m.logo) "D-" ++ text ++ ">" := by
  simp [format_keybinding_string, or_empty]

/-- A prefix of key-input events only appends to the buffer: it emits nothing
and does not otherwise change the processing of the remaining events. -/
theorem handle_events_keyinputs_first (useLogo : Bool → Bool) (sendOk : Bool)
    (tail : List Event) :
    ∀ (kes : List KeyEvent) (m : KeyboardManager),
      handle_events useLogo sendOk m (kes.map Event.KeyboardInput ++ tail) =
        handle_events useLogo sendOk
          { m with queued_key_events := m.queued_key_events ++ kes } tail
  | [], m => by simp
  | ke :: rest, m => by
    have ih := handle_events_keyinputs_first useLogo sendOk tail rest
      { m with queued_key_events := m.queued_key_events ++ [ke] }
    simp only [List.map_cons, List.cons_append, handle_events, handle_event_keyinput,
      bind, Except.bind, List.append_eq]
    rw [ih]
    simp only [List.append_assoc, List.singleton_append]
    cases handle_events useLogo sendOk
      { m with queued_key_events := m.queued_key_events ++ ke :: rest } tail with
    | error e => rfl
    | ok r => simp

/-- C1: for every state (hence every sequence of buffered key events),
processing a frame-boundary event leaves the frame buffer empty and the
ignore flag false afterwards, on every branch — whether the ignore flag was
true or false, including when zero events were buffered. -/
theorem frame_boundary_clears (useLogo : Bool → Bool) (m : KeyboardManager) :
    ∃ outs : List UiCommand,
      handle_event useLogo true m Event.MainEventsCleared =
        Except.ok
          ({ m with ignore_input_this_frame := false, queued_key_events := [] }, outs) :=
  ⟨_, handle_event_mec useLogo m⟩

/-- C2: whenever the ignore flag is true (focus was just gained), processing a
frame-boundary event sends zero commands, no matter how many key events are
buffered, and the buffer is empty immediately afterwards. -/
theorem focus_gain_suppresses_frame (useLogo : Bool → Bool) (sendOk : Bool)
    (m : KeyboardManager) (h : m.ignore_input_this_frame = true) :
    handle_event useLogo sendOk m Event.MainEventsCleared =
      Except.ok
        ({ m with ignore_input_this_frame := false, queued_key_events := [] }, []) := by
  simp [handle_event, h]

theorem focus_gain_suppresses_frame_witness :
    handle_event use_logo true
      { ctrl := false, alt := false, logo := false, ignore_input_this_frame := true,
        queued_key_events :=
          [⟨ElementState.Pressed, Key.Character "a", some "a"⟩,
           ⟨ElementState.Pressed, Key.Escape, none⟩] }
      Event.MainEventsCleared =
      Except.ok
        ({ ctrl := false, alt := false, logo := false, ignore_input_this_frame := false,
           queued_key_events := [] }, []) :=
  focus_gain_suppresses_frame use_logo true _ rfl

/-- C3: for every pair (forced-special flag, text) and every modifier state,
the formatted keybinding string equals open + ctrl-fragment + alt-fragment +
logo-fragment + text + close, where wrap = forced OR ctrl OR alt OR logo,
open/close are the angle brackets exactly when wrap holds, and the fragments
C-, M-, D- appear in that fixed order, each present exactly when its modifier
is set (an absent modifier contributes the empty string). -/
theorem format_fragment_structure (m : KeyboardManager) (forced : Bool) (text : String) :
    format_keybinding_string use_logo m forced text =
      (if forced || m.ctrl || m.alt || m.logo then "<" else "") ++
        (if m.ctrl then "C-" else "") ++ (if m.alt then "M-" else "") ++
        (if m.logo then "D-" else "") ++ text ++
        (if forced || m.ctrl || m.alt || m.logo then ">" else "") := by
  simp [format_keybinding_string, or_empty, use_logo]

/-- C4: on Windows the D- fragment never appears in the output even when the
logo modifier is held, yet the raw logo value still participates in the wrap
decision: the output drops the logo fragment but keeps logo in the wrap
condition, and pressing a printable key with only logo held yields an
angle-bracket-wrapped string with no D- fragment. -/
theorem windows_logo_masked_but_wraps (m : KeyboardManager) (forced : Bool) (text : String) :
    (format_keybinding_string use_logo_windows m forced text =
      (if forced || m.ctrl || m.alt || m.logo then "<" else "") ++
        (if m.ctrl then "C-" else "") ++ (if m.alt then "M-" else "") ++ text ++
        (if forced || m.ctrl || m.alt || m.logo then ">" else "")) ∧
    (∀ (b : Bool) (q : List KeyEvent) (t : String),
      format_keybinding_string use_logo_windows
        { ctrl := false, alt := false, logo := true, ignore_input_this_frame := b,
          queued_key_events := q } false t = "<" ++ t ++ ">") := by
  constructor
  · simp [format_keybinding_string, or_empty, use_logo_windows]
  · intro b q t
    simp [format_keybinding_string, or_empty, use_logo_windows]

/-- C5: for every key in the control-key table and every modifier state, the
string emitted for a pressed event of that key at the frame boundary is
angle-bracket wrapped, independent of whether any modifier is held. -/
theorem control_key_always_wrapped (useLogo : Bool → Bool) (m : KeyboardManager)
    (ke : KeyEvent) (tok : String)
    (hignore : m.ignore_input_this_frame = false)
    (hq : m.queued_key_events = [ke])
    (hst : ke.state = ElementState.Pressed)
    (hck : is_control_key ke.logical_key = some tok) :
    handle_event useLogo true m Event.MainEventsCleared =
      Except.ok
        ({ m with ignore_input_this_frame := false, queued_key_events := [] },
          [UiCommand.Keyboard
            ("<" ++ or_empty m.ctrl "C-" ++ or_empty m.alt "M-" ++
              or_empty (useLogo m.logo) "D-" ++ tok ++ ">")]) := by
  rw [handle_event_mec, hignore, hq]
  simp [emission_of, hst, hck, format_forced]

theorem control_key_always_wrapped_witness :
    handle_event use_logo true
      { ctrl := true, alt := true, logo := false, ignore_input_this_frame := false,
        queued_key_events := [⟨ElementState.Pressed, Key.ArrowLeft, none⟩] }
      Event.MainEventsCleared =
      Except.ok
        ({ ctrl := true, alt := true, logo := false, ignore_input_this_frame := false,
           queued_key_events := [] }, [UiCommand.Keyboard "<C-M-Left>"]) := by
  have h := control_key_always_wrapped use_logo
    { ctrl := true, alt := true, logo := false, ignore_input_this_frame := false,
      queued_key_events := [⟨ElementState.Pressed, Key.ArrowLeft, none⟩] }
    ⟨ElementState.Pressed, Key.ArrowLeft, none⟩ "Left" rfl rfl rfl rfl
  simpa using h

/-- C6: for a non-control key whose resolved text equals one of the six special
literals, the emitted string uses the substituted token (Space, lt, Bslash,
Bar, Tab, CR) and is angle-bracket wrapped even with no modifier held; for
every other resolved text the text is used verbatim (unwrapped when no
modifier is held). -/
theorem special_text_substituted (useLogo : Bool → Bool) (m : KeyboardManager)
    (ke : KeyEvent) (t : String)
    (hUL : useLogo false = false)
    (hignore : m.ignore_input_this_frame = false)
    (hq : m.queued_key_events = [ke])
    (hst : ke.state = ElementState.Pressed)
    (hck : is_control_key ke.logical_key = none)
    (htxt : ke.text_with_all_modifiers = some t) :
    (is_special " " = some "Space" ∧ is_special "<" = some "lt" ∧
     is_special "\\" = some "Bslash" ∧ is_special "|" = some "Bar" ∧
     is_special "\t" = some "Tab" ∧ is_special "\n" = some "CR") ∧
    (∀ tok, is_special t = some tok →
      handle_event useLogo true m Event.MainEventsCleared =
        Except.ok
          ({ m with ignore_input_this_frame := false, queued_key_events := [] },
            [UiCommand.Keyboard
              ("<" ++ or_empty m.ctrl "C-" ++ or_empty m.alt "M-" ++
                or_empty (useLogo m.logo) "D-" ++ tok ++ ">")])) ∧
    (is_special t = none →
      handle_event useLogo true m Event.MainEventsCleared =
        Except.ok
          ({ m with ignore_input_this_frame := false, queued_key_events := [] },
            [UiCommand.Keyboard (format_keybinding_string useLogo m false t)])) ∧
    (is_special t = none → m.ctrl = false → m.alt = false → m.logo = false →
      handle_event useLogo true m Event.MainEventsCleared =
        Except.ok
          ({ m with ignore_input_this_frame := false, queued_key_events := [] },
            [UiCommand.Keyboard t])) := by
  refine ⟨⟨rfl, rfl, rfl, rfl, rfl, rfl⟩, ?_, ?_, ?_⟩
  · intro tok hsp
    rw [handle_event_mec, hignore, hq]
    simp [emission_of, hst, hck, htxt, hsp, format_forced]
  · intro hsp
    rw [handle_event_mec, hignore, hq]
    simp [emission_of, hst, hck, htxt, hsp]
  · intro hsp hc ha hl
    rw [handle_event_mec, hignore, hq]
    simp [emission_of, hst, hck, htxt, hsp, format_keybinding_string, or_empty, hc, ha,
      hl, hUL]

theorem special_text_substituted_witness :
    handle_event use_logo true
      { ctrl := false, alt := false, logo := false, ignore_input_this_frame := false,
        queued_key_events := [⟨ElementState.Pressed, Key.Character " ", some " "⟩] }
      Event.MainEventsCleared =
      Except.ok
        ({ ctrl := false, alt := false, logo := false, ignore_input_this_frame := false,
           queued_key_events := [] }, [UiCommand.Keyboard "<Space>"]) := by
  have h := (special_text_substituted use_logo
    { ctrl := false, alt := false, logo := false, ignore_input_this_frame := false,
      queued_key_events := [⟨ElementState.Pressed, Key.Character " ", some " "⟩] }
    ⟨ElementState.Pressed, Key.Character " ", some " "⟩ " "
    rfl rfl rfl rfl rfl rfl).2.1 "Space" rfl
  simpa using h

/-- C7: at a frame boundary with the ignore flag false, every buffered event
whose state is exactly Pressed and whose key is a control key or has
resolvable text produces exactly one emission, processed in arrival order;
every Released event and every event with unresolvable text produces zero
emissions — only an exact press triggers emission. -/
theorem pressed_events_emit_once (useLogo : Bool → Bool) (m : KeyboardManager)
    (hignore : m.ignore_input_this_frame = false) :
    handle_event useLogo true m Event.MainEventsCleared =
      Except.ok
        ({ m with ignore_input_this_frame := false, queued_key_events := [] },
          m.queued_key_events.filterMap (emission_of useLogo m)) ∧
    (∀ ke : KeyEvent, ke.state = ElementState.Released →
      emission_of useLogo m ke = none) ∧
    (∀ ke : KeyEvent, ke.state = ElementState.Pressed →
      (is_control_key ke.logical_key).isSome = true ∨
        ke.text_with_all_modifiers.isSome = true →
      (emission_of useLogo m ke).isSome = true) ∧
    (∀ ke : KeyEvent, is_control_key ke.logical_key = none →
      ke.text_with_all_modifiers = none → emission_of useLogo m ke = none) := by
  refine ⟨?_, ?_, ?_, ?_⟩
  · rw [handle_event_mec, hignore]
    simp
  · intro ke h
    simp [emission_of, h]
  · intro ke hst hr
    cases hc : is_control_key ke.logical_key with
    | some kt => simp [emission_of, hst, hc]
    | none =>
      cases ht : ke.text_with_all_modifiers with
      | some kt => simp [emission_of, hst, hc, ht]
      | none =>
        rcases hr with hr | hr
        · rw [hc] at hr; simp at hr
        · rw [ht] at hr; simp at hr
  · intro ke hc ht
    simp [emission_of, hc, ht]

theorem pressed_events_emit_once_witness :
    handle_event use_logo true
      { ctrl := false, alt := false, logo := false, ignore_input_this_frame := false,
        queued_key_events :=
          [⟨ElementState.Pressed, Key.Character "x", some "x"⟩,
           ⟨ElementState.Released, Key.Character "x", some "x"⟩,
           ⟨ElementState.Pressed, Key.Other, none⟩,
           ⟨ElementState.Pressed, Key.Escape, none⟩] }
      Event.MainEventsCleared =
      Except.ok
        ({ ctrl := false, alt := false, logo := false, ignore_input_this_frame := false,
           queued_key_events := [] },
          [UiCommand.Keyboard "x", UiCommand.Keyboard "<Esc>"]) := by
  have h := (pressed_events_emit_once use_logo
    { ctrl := false, alt := false, logo := false, ignore_input_this_frame := false,
      queued_key_events :=
        [⟨ElementState.Pressed, Key.Character "x", some "x"⟩,
         ⟨ElementState.Released, Key.Character "x", some "x"⟩,
         ⟨ElementState.Pressed, Key.Other, none⟩,
         ⟨ElementState.Pressed, Key.Escape, none⟩] } rfl).1
  simpa [emission_of, is_control_key, is_special, format_keybinding_string, or_empty,
    use_logo] using h

/-- C8: a buffered key event is formatted using the modifier values current at
frame-boundary processing time, not the values current when the key event was
captured: a modifier-changed event arriving after a key-input event but before
the frame boundary determines the emitted string; concretely, pressing the a
key with no modifiers and then gaining ctrl before the boundary emits the
ctrl-wrapped string. -/
theorem modifier_snapshot_at_frame_boundary (useLogo : Bool → Bool)
    (c a l : Bool) (q0 : List KeyEvent) (ke : KeyEvent) (mods : ModifiersState) :
    (handle_events useLogo true
        { ctrl := c, alt := a, logo := l, ignore_input_this_frame := false,
          queued_key_events := q0 }
        [Event.KeyboardInput ke, Event.ModifiersChanged mods, Event.MainEventsCleared] =
      Except.ok
        ({ ctrl := mods.control_key, alt := mods.alt_key, logo := mods.super_key,
           ignore_input_this_frame := false, queued_key_events := [] },
          (q0 ++ [ke]).filterMap
            (emission_of useLogo
              { ctrl := mods.control_key, alt := mods.alt_key, logo := mods.super_key,
                ignore_input_this_frame := false, queued_key_events := q0 ++ [ke] }))) ∧
    (handle_events use_logo true KeyboardManager.new
        [Event.KeyboardInput ⟨ElementState.Pressed, Key.Character "a", some "a"⟩,
         Event.ModifiersChanged ⟨true, false, false⟩, Event.MainEventsCleared] =
      Except.ok
        ({ ctrl := true, alt := false, logo := false, ignore_input_this_frame := false,
           queued_key_events := [] }, [UiCommand.Keyboard "<C-a>"])) := by
  constructor
  · simp [handle_events, handle_event_keyinput, handle_event_modifiers, handle_event_mec,
      bind, Except.bind]
  · rfl

/-- C9: if delivery of a formatted string to the outbound sink fails, the
component treats it as unrecoverable — processing terminates with the expect
panic rather than retrying or silently dropping the message; when delivery
succeeds, processing continues normally (every call returns ok). -/
theorem send_failure_is_fatal :
    (∀ (useLogo : Bool → Bool) (m : KeyboardManager) (e : Event),
      ∃ r, handle_event useLogo true m e = Except.ok r) ∧
    (∀ (useLogo : Bool → Bool) (m : KeyboardManager) (ke : KeyEvent),
      m.ignore_input_this_frame = false → m.queued_key_events = [ke] →
      ke.state = ElementState.Pressed →
      ((is_control_key ke.logical_key).isSome = true ∨
        ke.text_with_all_modifiers.isSome = true) →
      handle_event useLogo false m Event.MainEventsCleared =
        Except.error sendPanicMsg) := by
  constructor
  · intro useLogo m e
    cases e with
    | Focused b => exact ⟨_, rfl⟩
    | KeyboardInput ke => exact ⟨_, rfl⟩
    | ModifiersChanged mods => exact ⟨_, rfl⟩
    | MainEventsCleared => exact ⟨_, handle_event_mec useLogo m⟩
    | Other => exact ⟨_, rfl⟩
  · intro useLogo m ke h1 h2 h3 h4
    cases hc : is_control_key ke.logical_key with
    | some kt => simp [handle_event, h1, h2, drain_key_events, h3, hc, send]
    | none =>
      cases ht : ke.text_with_all_modifiers with
      | none =>
        rcases h4 with h4 | h4
        · rw [hc] at h4; simp at h4
        · rw [ht] at h4; simp at h4
      | some t => simp [handle_event, h1, h2, drain_key_events, h3, hc, ht, send]

theorem send_failure_is_fatal_witness :
    (∃ r, handle_event use_logo true
      { ctrl := false, alt := false, logo := false, ignore_input_this_frame := false,
        queued_key_events := [⟨ElementState.Pressed, Key.Escape, none⟩] }
      Event.MainEventsCleared = Except.ok r) ∧
    handle_event use_logo false
      { ctrl := false, alt := false, logo := false, ignore_input_this_frame := false,
        queued_key_events := [⟨ElementState.Pressed, Key.Escape, none⟩] }
      Event.MainEventsCleared = Except.error "Could not send keyboard ui command" := by
  constructor
  · exact send_failure_is_fatal.1 use_logo _ Event.MainEventsCleared
  · exact send_failure_is_fatal.2 use_logo _
      ⟨ElementState.Pressed, Key.Escape, none⟩ rfl rfl rfl (Or.inl rfl)

/-- C10: focus-event suppression is order-independent within a frame and
last-write-wins: a focus-gained event arriving after key events in the same
frame still discards all of them, and focus-gained followed by focus-lost
before the frame boundary cancels the suppression, so the buffered pressed
events are emitted normally. -/
theorem focus_suppression_last_write_wins :
    (∀ (useLogo : Bool → Bool) (sendOk : Bool) (m : KeyboardManager)
        (kes : List KeyEvent),
      handle_events useLogo sendOk m
          (kes.map Event.KeyboardInput ++ [Event.Focused true, Event.MainEventsCleared]) =
        Except.ok
          ({ m with ignore_input_this_frame := false, queued_key_events := [] }, [])) ∧
    (∀ (useLogo : Bool → Bool) (m : KeyboardManager) (kes : List KeyEvent),
      handle_events useLogo true m
          (kes.map Event.KeyboardInput ++
            [Event.Focused true, Event.Focused false, Event.MainEventsCleared]) =
        Except.ok
          ({ m with ignore_input_this_frame := false, queued_key_events := [] },
            (m.queued_key_events ++ kes).filterMap
              (emission_of useLogo
                { m with ignore_input_this_frame := false, queued_key_events := m.queued_key_events ++ kes }))) := by
  constructor
  · intro useLogo sendOk m kes
    rw [handle_events_keyinputs_first]
    simp [handle_events, handle_event_focused, handle_event, bind, Except.bind]
  · intro useLogo m kes
    rw [handle_events_keyinputs_first]
    simp [handle_events, handle_event_focused, handle_event_mec, bind, Except.bind]

end KeyboardManagerSpec
